import Mathlib

/-!
Verification of the scene-flattening and procedural tessellation core of the
USD viewer repository (usd_basic_viewer.py, usd_hydra_viewer.py,
usd_hydra_viewer_pyqt6.py).  The Python code works on floating-point values;
the embedding models all arithmetic over ℚ, and models each call of
math.cos / math.sin through an abstract trigonometry oracle (a pair of
functions ℚ → ℚ), so that the Pythagorean facts the proofs need are explicit
hypotheses rather than floating-point approximations.  Square roots
(np.linalg.norm / math.sqrt) are modelled by passing the computed length as an
explicit argument constrained by l * l = squared norm.
-/

/-- A 3-component vector with rational components, standing for the Python
triples / numpy arrays of doubles used throughout the viewer code. -/
structure Vec3 where
  x : ℚ
  y : ℚ
  z : ℚ
deriving DecidableEq, Repr

def vzero : Vec3 := ⟨0, 0, 0⟩

def vup : Vec3 := ⟨0, 1, 0⟩

def vsub (a b : Vec3) : Vec3 := ⟨a.x - b.x, a.y - b.y, a.z - b.z⟩

/-- Componentwise cross product, as written out in render_mesh /
render_mesh_simple and as computed by np.cross in Mesh.compute_normals. -/
def cross (a b : Vec3) : Vec3 :=
  ⟨a.y * b.z - a.z * b.y, a.z * b.x - a.x * b.z, a.x * b.y - a.y * b.x⟩

/-- The raw (unnormalized) triangle normal: (p1 - p0) x (p2 - p0). -/
def crossTri (p0 p1 p2 : Vec3) : Vec3 := cross (vsub p1 p0) (vsub p2 p0)

def vscale (s : ℚ) (v : Vec3) : Vec3 := ⟨s * v.x, s * v.y, s * v.z⟩

/-- Squared Euclidean norm; the Python code takes sqrt of this value. -/
def normSq (v : Vec3) : ℚ := v.x * v.x + v.y * v.y + v.z * v.z

/-! ## Mesh Triangulator (extract_mesh_from_prim in usd_basic_viewer.py;
the same fan loop appears inline in GLViewport.render_mesh of
usd_hydra_viewer_pyqt6.py and HydraViewport.render_mesh_simple of
usd_hydra_viewer.py). -/

/-- Fan triangulation of one face, from extract_mesh_from_prim:
`if len(face) >= 3: for i in range(1, len(face) - 1):
mesh.faces.append([face[0], face[i], face[i + 1]])`. -/
def triangulateFace (face : List ℕ) : List (ℕ × ℕ × ℕ) :=
  if 3 ≤ face.length then
    (List.range (face.length - 2)).map
      (fun i => (face.getD 0 0, face.getD (i + 1) 0, face.getD (i + 2) 0))
  else []

/-- The face loop of extract_mesh_from_prim: each face consumes `count`
indices from the flattened index list (stopping early if the indices run
out, per the `if idx < len(indices)` guard), and is fan-triangulated. -/
def extractFaces : List ℕ → List ℕ → List (ℕ × ℕ × ℕ)
  | [], _ => []
  | c :: cs, idxs => triangulateFace (idxs.take c) ++ extractFaces cs (idxs.drop c)

/-! ## Per-triangle normal computation in each of the three mesh paths.
The Python computes length = sqrt(normSq v); the embedding receives that
length as an explicit argument `l`. -/

/-- Mesh.compute_normals (usd_basic_viewer.py, lines 110-131):
`if length > 0: normal = normal / length else: normal = [0, 1, 0]`. -/
def computeNormalBasic (v : Vec3) (l : ℚ) : Vec3 :=
  if 0 < l then vscale (1 / l) v else vup

/-- GLViewport.render_mesh (usd_hydra_viewer_pyqt6.py, lines 331-343):
`if length > 0: n = [x / length ...] else: n = [0, 1, 0]`. -/
def renderMeshNormal (v : Vec3) (l : ℚ) : Vec3 :=
  if 0 < l then vscale (1 / l) v else vup

/-- HydraViewport.render_mesh_simple (usd_hydra_viewer.py, lines 386-398):
`if length > 0: n = [x / length ...]` with NO else branch — a zero-length
cross product is emitted unchanged. -/
def renderMeshSimpleNormal (v : Vec3) (l : ℚ) : Vec3 :=
  if 0 < l then vscale (1 / l) v else v

/-! ## Abstract trigonometry oracle. Each Python call math.cos(e) / math.sin(e)
is modelled as t.cos a / t.sin a where `a` is the rational angle parameter
(the multiple of pi or 2*pi appearing in the source expression). -/

structure Trig where
  cos : ℚ → ℚ
  sin : ℚ → ℚ

/-- The oracle is faithful to real trigonometry: cos² + sin² = 1. -/
def TrigPyth (t : Trig) : Prop :=
  ∀ a : ℚ, t.cos a * t.cos a + t.sin a * t.sin a = 1

/-- A concrete oracle whose value at every angle is the value of real
cos/sin at angle 0; used to instantiate witnesses. -/
def trigZero : Trig := ⟨fun _ => 1, fun _ => 0⟩

/-! ## Orbit Camera (Camera classes in all three files). -/

/-- The orbit-camera state fields the rotate/frame operations touch. -/
structure CameraSt where
  distance : ℚ
  azimuth : ℚ
  elevation : ℚ
deriving DecidableEq, Repr

/-- Camera.rotate in usd_basic_viewer.py (lines 75-79):
azimuth -= dx*0.5; elevation += dy*0.5; clamp to [-89, 89]. -/
def rotateBasic (c : CameraSt) (dx dy : ℚ) : CameraSt :=
  { c with
    azimuth := c.azimuth - dx * (1 / 2)
    elevation := max (-89) (min 89 (c.elevation + dy * (1 / 2))) }

/-- Camera.rotate in usd_hydra_viewer_pyqt6.py (lines 87-90) and
usd_hydra_viewer.py (lines 149-152): the same with factor 0.3. -/
def rotatePyqt (c : CameraSt) (dx dy : ℚ) : CameraSt :=
  { c with
    azimuth := c.azimuth - dx * (3 / 10)
    elevation := max (-89) (min 89 (c.elevation + dy * (3 / 10))) }

/-- The maximum axis extent of a bounding box, as computed inside
Camera.frame_bounds. -/
def maxExtent (bmin bmax : Vec3) : ℚ :=
  max (bmax.x - bmin.x) (max (bmax.y - bmin.y) (bmax.z - bmin.z))

/-- Camera.frame_bounds, identical in usd_hydra_viewer_pyqt6.py (108-122)
and usd_hydra_viewer.py (177-196): target = midpoint of the box; distance =
`size * 2.0 if size > 0 else 10.0`.  Returns (target, distance). -/
def frameBounds (bmin bmax : Vec3) : Vec3 × ℚ :=
  (⟨(bmin.x + bmax.x) / 2, (bmin.y + bmax.y) / 2, (bmin.z + bmax.z) / 2⟩,
   if 0 < maxExtent bmin bmax then maxExtent bmin bmax * 2 else 10)

/-! ## Shape parameter defaults (the `attr.Get() or default` pattern in
usd_hydra_viewer_pyqt6.py).  Python `v or d` yields d when v is None or 0. -/

/-- Python `attr.Get() or d`: the default is used when the attribute is
absent (None) or its value is falsy (0.0). -/
def getOr (v : Option ℚ) (d : ℚ) : ℚ :=
  match v with
  | none => d
  | some x => if x = 0 then d else x

/-- render_cylinder line 433: `radius = ... or 1.0`. -/
def cylinderRadiusOf (v : Option ℚ) : ℚ := getOr v 1

/-- render_cylinder line 434: `height = ... or 2.0`. -/
def cylinderHeightOf (v : Option ℚ) : ℚ := getOr v 2

/-- render_cone line 480: `radius = ... or 1.0`. -/
def coneRadiusOf (v : Option ℚ) : ℚ := getOr v 1

/-- render_cone line 481: `height = ... or 2.0`. -/
def coneHeightOf (v : Option ℚ) : ℚ := getOr v 2

/-- render_capsule line 517: `radius = ... or 0.5`. -/
def capsuleRadiusOf (v : Option ℚ) : ℚ := getOr v (1 / 2)

/-- render_capsule line 518: `height = ... or 2.0`. -/
def capsuleHeightOf (v : Option ℚ) : ℚ := getOr v 2

/-- render_sphere line 396: `radius = ... or 1.0`. -/
def sphereRadiusOf (v : Option ℚ) : ℚ := getOr v 1

/-- render_cube line 358: `size = ... or 1.0`. -/
def cubeSizeOf (v : Option ℚ) : ℚ := getOr v 1

/-! ## Display colors (GLViewport.get_display_color and its callers). -/

/-- GLViewport.get_display_color (lines 291-297): the first authored display
color if any, else the caller-supplied default. -/
def getDisplayColor (colors : Option (List (ℚ × ℚ × ℚ))) (d : ℚ × ℚ × ℚ) :
    ℚ × ℚ × ℚ :=
  match colors with
  | some (c :: _) => c
  | some [] => d
  | none => d

/-- render_mesh line 313 calls get_display_color with no explicit default,
so the parameter default (0.7, 0.7, 0.8) applies. -/
def meshDrawColor (colors : Option (List (ℚ × ℚ × ℚ))) : ℚ × ℚ × ℚ :=
  getDisplayColor colors (7 / 10, 7 / 10, 4 / 5)

/-- render_cube line 363: default (0.3, 0.5, 0.8). -/
def cubeDrawColor (colors : Option (List (ℚ × ℚ × ℚ))) : ℚ × ℚ × ℚ :=
  getDisplayColor colors (3 / 10, 1 / 2, 4 / 5)

/-- render_sphere line 401: default (0.8, 0.3, 0.3). -/
def sphereDrawColor (colors : Option (List (ℚ × ℚ × ℚ))) : ℚ × ℚ × ℚ :=
  getDisplayColor colors (4 / 5, 3 / 10, 3 / 10)

/-- render_cylinder line 439: default (0.3, 0.7, 0.3). -/
def cylinderDrawColor (colors : Option (List (ℚ × ℚ × ℚ))) : ℚ × ℚ × ℚ :=
  getDisplayColor colors (3 / 10, 7 / 10, 3 / 10)

/-- render_cone line 486: default (0.9, 0.7, 0.2). -/
def coneDrawColor (colors : Option (List (ℚ × ℚ × ℚ))) : ℚ × ℚ × ℚ :=
  getDisplayColor colors (9 / 10, 7 / 10, 1 / 5)

/-- render_capsule line 523: default (0.8, 0.5, 0.2). -/
def capsuleDrawColor (colors : Option (List (ℚ × ℚ × ℚ))) : ℚ × ℚ × ℚ :=
  getDisplayColor colors (4 / 5, 1 / 2, 1 / 5)

/-- Mesh.__init__ in usd_basic_viewer.py line 107: default mesh color. -/
def basicMeshDefaultColor : ℚ × ℚ × ℚ := (7 / 10, 7 / 10, 4 / 5)

/-! ## Cube tessellation (GLViewport.render_cube, usd_hydra_viewer_pyqt6.py
lines 355-391): 8 corner vertices, then glBegin(GL_QUADS) emitting one
four-vertex quad per face, each with a constant-axis normal. -/

/-- The 8 corner vertices of render_cube, with half = size / 2. -/
def cubeVertices (size : ℚ) : List Vec3 :=
  [⟨-(size / 2), -(size / 2), -(size / 2)⟩, ⟨size / 2, -(size / 2), -(size / 2)⟩,
   ⟨size / 2, size / 2, -(size / 2)⟩, ⟨-(size / 2), size / 2, -(size / 2)⟩,
   ⟨-(size / 2), -(size / 2), size / 2⟩, ⟨size / 2, -(size / 2), size / 2⟩,
   ⟨size / 2, size / 2, size / 2⟩, ⟨-(size / 2), size / 2, size / 2⟩]

/-- The `faces` table of render_cube: four vertex indices and one normal per
cube face, in source order. -/
def cubeQuadFaces : List (List ℕ × Vec3) :=
  [([0, 1, 2, 3], ⟨0, 0, -1⟩), ([4, 7, 6, 5], ⟨0, 0, 1⟩),
   ([0, 3, 7, 4], ⟨-1, 0, 0⟩), ([1, 5, 6, 2], ⟨1, 0, 0⟩),
   ([0, 4, 5, 1], ⟨0, -1, 0⟩), ([3, 2, 6, 7], ⟨0, 1, 0⟩)]

/-- The GL_QUADS primitive stream of render_cube: for each face, its normal
and its four resolved vertex positions. -/
def renderCubeQuads (size : ℚ) : List (Vec3 × List Vec3) :=
  cubeQuadFaces.map
    (fun f => (f.2, f.1.map (fun i => (cubeVertices size).getD i vzero)))

/-! ## Sample cube mesh (create_sample_cube, usd_basic_viewer.py 169-193):
12 explicit triangles over 8 vertices of a unit cube, normals then derived
by Mesh.compute_normals. -/

def sampleCubeVertices : List Vec3 :=
  [⟨-(1 / 2), -(1 / 2), -(1 / 2)⟩, ⟨1 / 2, -(1 / 2), -(1 / 2)⟩,
   ⟨1 / 2, 1 / 2, -(1 / 2)⟩, ⟨-(1 / 2), 1 / 2, -(1 / 2)⟩,
   ⟨-(1 / 2), -(1 / 2), 1 / 2⟩, ⟨1 / 2, -(1 / 2), 1 / 2⟩,
   ⟨1 / 2, 1 / 2, 1 / 2⟩, ⟨-(1 / 2), 1 / 2, 1 / 2⟩]

def sampleCubeFaces : List (List ℕ) :=
  [[0, 1, 2], [0, 2, 3], [4, 6, 5], [4, 7, 6], [0, 4, 5], [0, 5, 1],
   [2, 6, 7], [2, 7, 3], [0, 3, 7], [0, 7, 4], [1, 5, 6], [1, 6, 2]]

/-- The raw cross-product normal Mesh.compute_normals derives for one face
of a vertex/face list (vertices[face[0]], vertices[face[1]],
vertices[face[2]]). -/
def faceCross (verts : List Vec3) (face : List ℕ) : Vec3 :=
  crossTri (verts.getD (face.getD 0 0) vzero) (verts.getD (face.getD 1 0) vzero)
    (verts.getD (face.getD 2 0) vzero)

/-- The 12 raw face normals of the sample cube. -/
def sampleCubeCross : List Vec3 := sampleCubeFaces.map (faceCross sampleCubeVertices)

/-! ## Sphere tessellation (GLViewport.render_sphere, usd_hydra_viewer_pyqt6.py
lines 393-428).  Latitude angles pi*(-0.5 + i/stacks) are represented by the
rational -1/2 + i/stacks, longitudes 2*pi*j/slices by j/slices. -/

/-- One (normal, vertex) pair of the render_sphere quad strip: with
x = cos(lng), y = sin(lng), zr = radius*cos(lat), z = radius*sin(lat), the
code emits glNormal3f(x*zr/radius, y*zr/radius, z/radius) and
glVertex3f(x*zr, y*zr, z). -/
def sphereStripPoint (t : Trig) (radius lat lng : ℚ) : Vec3 × Vec3 :=
  (⟨t.cos lng * (radius * t.cos lat) / radius,
    t.sin lng * (radius * t.cos lat) / radius,
    radius * t.sin lat / radius⟩,
   ⟨t.cos lng * (radius * t.cos lat), t.sin lng * (radius * t.cos lat),
    radius * t.sin lat⟩)

/-- The full quad-strip stream of render_sphere: one strip per stack band i,
and per longitude step j the pair of points at lat0 and lat1. -/
def renderSphereStrips (t : Trig) (radius : ℚ) (nSlices nStacks : ℕ) :
    List (List (Vec3 × Vec3)) :=
  (List.range nStacks).map (fun i =>
    (List.range (nSlices + 1)).flatMap (fun j =>
      [sphereStripPoint t radius (-(1 / 2) + (i : ℚ) / (nStacks : ℚ))
         ((j : ℚ) / (nSlices : ℚ)),
       sphereStripPoint t radius (-(1 / 2) + ((i : ℚ) + 1) / (nStacks : ℚ))
         ((j : ℚ) / (nSlices : ℚ))]))

/-! ## Sample sphere mesh (create_sample_sphere, usd_basic_viewer.py
196-227).  phi = pi*i/rings is represented by i/rings, theta = 2*pi*j/segments
by j/segments. -/

def sampleSphereVerts (t : Trig) (radius : ℚ) (segments rings : ℕ) : List Vec3 :=
  (List.range (rings + 1)).flatMap (fun i =>
    (List.range segments).map (fun j =>
      ⟨radius * t.sin ((i : ℚ) / (rings : ℚ)) * t.cos ((j : ℚ) / (segments : ℚ)),
       radius * t.cos ((i : ℚ) / (rings : ℚ)),
       radius * t.sin ((i : ℚ) / (rings : ℚ)) * t.sin ((j : ℚ) / (segments : ℚ))⟩))

def sampleSphereFaces (segments rings : ℕ) : List (List ℕ) :=
  (List.range rings).flatMap (fun i =>
    (List.range segments).flatMap (fun j =>
      [[i * segments + j, (i + 1) * segments + (j + 1) % segments,
        i * segments + (j + 1) % segments],
       [i * segments + j, (i + 1) * segments + j,
        (i + 1) * segments + (j + 1) % segments]]))

/-! ## Cylinder / cone / capsule normals (render_cylinder 430-475,
render_cone 477-512, render_capsule 514-564 of usd_hydra_viewer_pyqt6.py). -/

/-- Side-wall normal of render_cylinder (and of the cylindrical part of
render_capsule): glNormal3f(x, 0, z) with x = cos(angle), z = sin(angle). -/
def cylinderSideNormal (t : Trig) (a : ℚ) : Vec3 := ⟨t.cos a, 0, t.sin a⟩

/-- Top-cap normal of render_cylinder: (0, 1, 0). -/
def capTopNormal : Vec3 := ⟨0, 1, 0⟩

/-- Bottom-cap normal of render_cylinder and render_cone: (0, -1, 0). -/
def capBottomNormal : Vec3 := ⟨0, -1, 0⟩

/-- Side-wall normal of render_cone as the code emits it (line 499):
glNormal3f(x, radius / height, z) — with no normalization. -/
def coneSideNormal (t : Trig) (a radius height : ℚ) : Vec3 :=
  ⟨t.cos a, radius / height, t.sin a⟩

/-- Hemisphere normal of render_capsule (line 557): glNormal3f(x*r0/radius,
sign*sin(lat), z*r0/radius) with r0 = radius*cos(lat). -/
def capsuleHemiNormal (t : Trig) (a lat sign radius : ℚ) : Vec3 :=
  ⟨t.cos a * (radius * t.cos lat) / radius, sign * t.sin lat,
   t.sin a * (radius * t.cos lat) / radius⟩

/-! ## Mesh.render (usd_basic_viewer.py lines 143-166): the immediate-mode
command stream, with its index bound checks. -/

/-- An immediate-mode draw command issued inside glBegin(GL_TRIANGLES). -/
inductive GLCmd where
  | setNormal : Vec3 → GLCmd
  | emitVertex : Vec3 → GLCmd
deriving DecidableEq, Repr

/-- The stored state of a Mesh object that Mesh.render reads. -/
structure MeshData where
  vertices : List Vec3
  normals : List Vec3
  faces : List (List ℕ)
deriving DecidableEq, Repr

/-- Mesh.render: for each face i, set the normal only `if i <
len(self.normals)`; then for each of the first three face indices
(`face[:3]`), emit the vertex only `if vertex_idx < len(self.vertices)`. -/
def renderMeshCmds (m : MeshData) : List GLCmd :=
  m.faces.enum.flatMap (fun p =>
    (match m.normals.get? p.1 with
     | some n => [GLCmd.setNormal n]
     | none => []) ++
    (p.2.take 3).filterMap (fun vi => (m.vertices.get? vi).map GLCmd.emitVertex))

/-! ## Cylinder, cone, and capsule tessellation streams
(render_cylinder 430-475, render_cone 477-512, render_capsule 514-564 of
usd_hydra_viewer_pyqt6.py).  Angles 2*pi*i/slices are represented by the
rational i/slices; the capsule's hemisphere latitudes (pi/2)*lat_i/8 by the
rational lat_i/8. -/

/-- Side wall of render_cylinder (and the cylindrical part of
render_capsule): a GL_QUAD_STRIP emitting, per angle step i, the outward
radial normal (x, 0, z) and the two rim vertices at y = -height/2 and
y = +height/2. -/
def cylinderSideStrip (t : Trig) (radius height : ℚ) (n : ℕ) :
    List (Vec3 × List Vec3) :=
  (List.range (n + 1)).map (fun i =>
    (cylinderSideNormal t ((i : ℚ) / (n : ℚ)),
     [⟨t.cos ((i : ℚ) / (n : ℚ)) * radius, -(height / 2),
       t.sin ((i : ℚ) / (n : ℚ)) * radius⟩,
      ⟨t.cos ((i : ℚ) / (n : ℚ)) * radius, height / 2,
       t.sin ((i : ℚ) / (n : ℚ)) * radius⟩]))

/-- Top cap of render_cylinder: a GL_TRIANGLE_FAN with normal (0,1,0), the
center vertex first, then the rim vertices for i = 0..slices. -/
def cylinderTopCap (t : Trig) (radius height : ℚ) (n : ℕ) : List Vec3 :=
  ⟨0, height / 2, 0⟩ :: (List.range (n + 1)).map (fun i =>
    ⟨radius * t.cos ((i : ℚ) / (n : ℚ)), height / 2,
     radius * t.sin ((i : ℚ) / (n : ℚ))⟩)

/-- Bottom cap of render_cylinder and render_cone: a GL_TRIANGLE_FAN with
normal (0,-1,0), the center vertex first, then the rim vertices walked in
reverse (for i in range(slices, -1, -1)). -/
def cylinderBottomCap (t : Trig) (radius height : ℚ) (n : ℕ) : List Vec3 :=
  ⟨0, -(height / 2), 0⟩ :: (List.range (n + 1)).reverse.map (fun i =>
    ⟨radius * t.cos ((i : ℚ) / (n : ℚ)), -(height / 2),
     radius * t.sin ((i : ℚ) / (n : ℚ))⟩)

/-- The full primitive stream of render_cylinder: side strip, top cap,
bottom cap. -/
def renderCylinderStream (t : Trig) (radius height : ℚ) (n : ℕ) :
    List (Vec3 × List Vec3) × List Vec3 × List Vec3 :=
  (cylinderSideStrip t radius height n, cylinderTopCap t radius height n,
   cylinderBottomCap t radius height n)

/-- Side fan of render_cone: the apex vertex (0, height/2, 0) first (emitted
before any glNormal3f call), then per angle step the unnormalized slanted
normal (x, radius/height, z) and the base-ring vertex. -/
def coneSideFan (t : Trig) (radius height : ℚ) (n : ℕ) :
    Vec3 × List (Vec3 × Vec3) :=
  (⟨0, height / 2, 0⟩,
   (List.range (n + 1)).map (fun i =>
     (coneSideNormal t ((i : ℚ) / (n : ℚ)) radius height,
      ⟨t.cos ((i : ℚ) / (n : ℚ)) * radius, -(height / 2),
       t.sin ((i : ℚ) / (n : ℚ)) * radius⟩)))

/-- The full primitive stream of render_cone: side fan plus base cap (the
base cap loop is identical to render_cylinder's bottom cap). -/
def renderConeStream (t : Trig) (radius height : ℚ) (n : ℕ) :
    (Vec3 × List (Vec3 × Vec3)) × List Vec3 :=
  (coneSideFan t radius height n, cylinderBottomCap t radius height n)

/-- Hemisphere quad strips of render_capsule: for sign in [1, -1] and each
of the `bands` latitude bands, a GL_QUAD_STRIP emitting per angle step the
two (normal, vertex) pairs at lat0 = lat_i/bands and lat1 = (lat_i+1)/bands,
with vertex (x*r0, sign*(height/2 + radius*sin(lat)), z*r0) and
r0 = radius*cos(lat). -/
def capsuleHemiStrips (t : Trig) (radius height : ℚ) (n bands : ℕ) :
    List (List (Vec3 × Vec3)) :=
  ([1, -1] : List ℚ).flatMap (fun sign =>
    (List.range bands).map (fun li =>
      (List.range (n + 1)).flatMap (fun j =>
        [(capsuleHemiNormal t ((j : ℚ) / (n : ℚ)) ((li : ℚ) / (bands : ℚ))
            sign radius,
          ⟨t.cos ((j : ℚ) / (n : ℚ)) * (radius * t.cos ((li : ℚ) / (bands : ℚ))),
           sign * (height / 2 + radius * t.sin ((li : ℚ) / (bands : ℚ))),
           t.sin ((j : ℚ) / (n : ℚ)) * (radius * t.cos ((li : ℚ) / (bands : ℚ)))⟩),
         (capsuleHemiNormal t ((j : ℚ) / (n : ℚ)) (((li : ℚ) + 1) / (bands : ℚ))
            sign radius,
          ⟨t.cos ((j : ℚ) / (n : ℚ)) * (radius * t.cos (((li : ℚ) + 1) / (bands : ℚ))),
           sign * (height / 2 + radius * t.sin (((li : ℚ) + 1) / (bands : ℚ))),
           t.sin ((j : ℚ) / (n : ℚ)) * (radius * t.cos (((li : ℚ) + 1) / (bands : ℚ)))⟩)])))

/-- The full primitive stream of render_capsule: the cylindrical side strip
(same loop as render_cylinder's side wall) plus the hemisphere strips. -/
def renderCapsuleStream (t : Trig) (radius height : ℚ) (n bands : ℕ) :
    List (Vec3 × List Vec3) × List (List (Vec3 × Vec3)) :=
  (cylinderSideStrip t radius height n, capsuleHemiStrips t radius height n bands)

/-! ## Helper lemmas -/

theorem triangulateFace_length (face : List ℕ) :
    (triangulateFace face).length = face.length - 2 := by
  unfold triangulateFace
  split
  · simp
  · simp
    omega

theorem extractFaces_length : ∀ (counts idxs : List ℕ),
    counts.sum ≤ idxs.length →
    (extractFaces counts idxs).length = (counts.map (fun c => c - 2)).sum := by
  intro counts
  induction counts with
  | nil => intro idxs _; simp [extractFaces]
  | cons c cs ih =>
    intro idxs h
    simp only [List.sum_cons] at h
    have hc : c ≤ idxs.length := by omega
    have hdrop : cs.sum ≤ (idxs.drop c).length := by
      simp only [List.length_drop]
      omega
    simp only [extractFaces, List.length_append, triangulateFace_length,
      List.length_take, List.map_cons, List.sum_cons]
    rw [ih (idxs.drop c) hdrop, min_eq_left hc]

theorem triangulateFace_getD (face : List ℕ) (i : ℕ) (hi : i < face.length - 2) :
    (triangulateFace face).getD i (0, 0, 0) =
      (face.getD 0 0, face.getD (i + 1) 0, face.getD (i + 2) 0) := by
  have h3 : 3 ≤ face.length := by omega
  simp only [triangulateFace, if_pos h3, List.getD_eq_getElem?_getD,
    List.getElem?_map, List.getElem?_range, hi, Option.map_some]
  rfl

/-- Claim C1: for every face in the input, the Mesh Triangulator emits exactly
max(count - 2, 0) triangles (no triangles for a face with fewer than 3
indices), anchored in fan order (v0, v_i, v_{i+1}) at the face's first
vertex.  The count assertion is the first conjunct (ℕ subtraction is
truncated, so c - 2 is exactly max(c - 2, 0)); the fan order is the second
and third conjuncts. -/
theorem mesh_triangulator_fan_count (counts idxs : List ℕ)
    (h : counts.sum ≤ idxs.length) :
    (extractFaces counts idxs).length = (counts.map (fun c => c - 2)).sum ∧
    (∀ face : List ℕ, (triangulateFace face).length = face.length - 2) ∧
    ∀ face : List ℕ, ∀ i : ℕ, i < face.length - 2 →
      (triangulateFace face).getD i (0, 0, 0) =
        (face.getD 0 0, face.getD (i + 1) 0, face.getD (i + 2) 0) := by
  refine ⟨extractFaces_length counts idxs h, triangulateFace_length, ?_⟩
  intro face i hi
  exact triangulateFace_getD face i hi

/-- Concrete instance of C1: one quad face over indices [0, 1, 2, 3] yields
exactly 2 triangles, and those are (0, 1, 2) and (0, 2, 3). -/
theorem mesh_triangulator_fan_count_witness :
    ([4] : List ℕ).sum ≤ ([0, 1, 2, 3] : List ℕ).length ∧
    (extractFaces [4] [0, 1, 2, 3]).length = (([4] : List ℕ).map (fun c => c - 2)).sum ∧
    extractFaces [4] [0, 1, 2, 3] = [(0, 1, 2), (0, 2, 3)] := by
  refine ⟨by decide, (mesh_triangulator_fan_count [4] [0, 1, 2, 3] (by decide)).1, by decide⟩

theorem clamp_elev_bounds (x : ℚ) :
    -89 ≤ max (-89) (min 89 x) ∧ max (-89) (min 89 x) ≤ 89 :=
  ⟨le_max_left _ _, max_le (by norm_num) (min_le_left _ _)⟩

theorem foldl_elev_bounds (f : CameraSt → ℚ × ℚ → CameraSt)
    (hf : ∀ s p, -89 ≤ (f s p).elevation ∧ (f s p).elevation ≤ 89) :
    ∀ (ops : List (ℚ × ℚ)) (c : CameraSt),
    -89 ≤ c.elevation → c.elevation ≤ 89 →
    -89 ≤ (ops.foldl f c).elevation ∧ (ops.foldl f c).elevation ≤ 89 := by
  intro ops
  induction ops with
  | nil => intro c h1 h2; exact ⟨h1, h2⟩
  | cons p ps ih => intro c _ _; exact ih (f c p) (hf c p).1 (hf c p).2

/-- Claim C6: starting from an elevation in [-89, 89], any sequence of
rotate calls (in either viewer's Camera) keeps elevation in [-89, 89], and a
single rotate(0, 1000) lands at exactly 89 degrees (so repetitions stay
there, 89 being in the starting range). -/
theorem camera_elevation_invariant :
    (∀ (ops : List (ℚ × ℚ)) (c : CameraSt),
       -89 ≤ c.elevation → c.elevation ≤ 89 →
       -89 ≤ (ops.foldl (fun s p => rotatePyqt s p.1 p.2) c).elevation ∧
       (ops.foldl (fun s p => rotatePyqt s p.1 p.2) c).elevation ≤ 89) ∧
    (∀ (ops : List (ℚ × ℚ)) (c : CameraSt),
       -89 ≤ c.elevation → c.elevation ≤ 89 →
       -89 ≤ (ops.foldl (fun s p => rotateBasic s p.1 p.2) c).elevation ∧
       (ops.foldl (fun s p => rotateBasic s p.1 p.2) c).elevation ≤ 89) ∧
    (∀ c : CameraSt, -89 ≤ c.elevation →
       (rotatePyqt c 0 1000).elevation = 89 ∧
       (rotateBasic c 0 1000).elevation = 89) := by
  refine ⟨foldl_elev_bounds _ (fun s p => clamp_elev_bounds _),
          foldl_elev_bounds _ (fun s p => clamp_elev_bounds _), ?_⟩
  intro c hc
  constructor
  · show max (-89) (min 89 (c.elevation + 1000 * (3 / 10))) = 89
    rw [min_eq_left (by linarith), max_eq_right (by norm_num)]
  · show max (-89) (min 89 (c.elevation + 1000 * (1 / 2))) = 89
    rw [min_eq_left (by linarith), max_eq_right (by norm_num)]

/-- Concrete instance of C6: from the default elevation 30, the drag
sequence [(5, 7), (0, 1000)] keeps elevation in range, and rotate(0, 1000)
from 30 gives exactly 89. -/
theorem camera_elevation_invariant_witness :
    ((-89 : ℚ) ≤ 30 ∧ (30 : ℚ) ≤ 89) ∧
    (-89 ≤ (([(5, 7), (0, 1000)] : List (ℚ × ℚ)).foldl
        (fun s p => rotatePyqt s p.1 p.2) ⟨10, 45, 30⟩).elevation ∧
     (([(5, 7), (0, 1000)] : List (ℚ × ℚ)).foldl
        (fun s p => rotatePyqt s p.1 p.2) ⟨10, 45, 30⟩).elevation ≤ 89) ∧
    (rotatePyqt ⟨10, 45, 30⟩ 0 1000).elevation = 89 := by
  refine ⟨⟨by norm_num, by norm_num⟩,
    camera_elevation_invariant.1 [(5, 7), (0, 1000)] ⟨10, 45, 30⟩ (by norm_num) (by norm_num),
    (camera_elevation_invariant.2.2 ⟨10, 45, 30⟩ (by norm_num)).1⟩

/-- Claim C5: frame_bounds sets the target to the box midpoint and the
distance to twice the maximum axis extent, falling back to the fixed
distance 10 when the extent is zero or negative; concretely,
frame_bounds([-5,0,-5], [5,3,5]) gives target (0, 1.5, 0) and distance 20. -/
theorem frame_bounds_spec :
    (∀ bmin bmax : Vec3, (frameBounds bmin bmax).1 =
        ⟨(bmin.x + bmax.x) / 2, (bmin.y + bmax.y) / 2, (bmin.z + bmax.z) / 2⟩) ∧
    (∀ bmin bmax : Vec3, 0 < maxExtent bmin bmax →
        (frameBounds bmin bmax).2 = maxExtent bmin bmax * 2) ∧
    (∀ bmin bmax : Vec3, maxExtent bmin bmax ≤ 0 →
        (frameBounds bmin bmax).2 = 10) ∧
    frameBounds ⟨-5, 0, -5⟩ ⟨5, 3, 5⟩ = (⟨0, 3 / 2, 0⟩, 20) := by
  refine ⟨fun bmin bmax => rfl, fun bmin bmax h => if_pos h, ?_, ?_⟩
  · intro bmin bmax h
    exact if_neg (by linarith)
  · have hext : maxExtent ⟨-5, 0, -5⟩ ⟨5, 3, 5⟩ = 10 := by
      norm_num [maxExtent]
    simp only [frameBounds, hext]
    norm_num

/-- Concrete instance of C5's degenerate-extent fallback: an empty box at
the origin gets the fallback distance 10. -/
theorem frame_bounds_spec_witness :
    maxExtent vzero vzero ≤ 0 ∧ (frameBounds vzero vzero).2 = 10 :=
  ⟨by norm_num [maxExtent, vzero],
   frame_bounds_spec.2.2.1 vzero vzero (by norm_num [maxExtent, vzero])⟩

/-- Counterexample to claim C7 as stated: the Primitive Tessellator's
default radius is NOT 1.0 for every primitive type — render_capsule
substitutes radius 0.5 when the radius attribute is absent. -/
theorem capsule_default_radius_not_one :
    capsuleRadiusOf none = 1 / 2 ∧ capsuleRadiusOf none ≠ 1 := by
  constructor
  · rfl
  · intro h
    rw [show capsuleRadiusOf none = 1 / 2 from rfl] at h
    norm_num at h

/-- Claim C7 amended: when a shape parameter is absent the tessellator
substitutes a fixed per-type default and proceeds: radius 1.0 and height 2.0
for cylinder and cone, radius 1.0 for sphere, size 1.0 for cube, but radius
0.5 (with height 2.0) for capsule. -/
theorem shape_parameter_defaults :
    cylinderRadiusOf none = 1 ∧ cylinderHeightOf none = 2 ∧
    coneRadiusOf none = 1 ∧ coneHeightOf none = 2 ∧
    sphereRadiusOf none = 1 ∧ cubeSizeOf none = 1 ∧
    capsuleRadiusOf none = 1 / 2 ∧ capsuleHeightOf none = 2 :=
  ⟨rfl, rfl, rfl, rfl, rfl, rfl, rfl, rfl⟩

/-- Counterexample to claim C8 as stated: a Cube prim with no display color
is drawn with (0.3, 0.5, 0.8), not with the neutral gray (0.7, 0.7, 0.8) —
the fallback color is NOT the same for every prim type. -/
theorem cube_default_color_not_gray :
    cubeDrawColor none = (3 / 10, 1 / 2, 4 / 5) ∧
    cubeDrawColor none ≠ (7 / 10, 7 / 10, 4 / 5) := by
  constructor
  · rfl
  · intro h
    rw [show cubeDrawColor none = (3 / 10, 1 / 2, 4 / 5) from rfl] at h
    simp only [Prod.mk.injEq] at h
    exact absurd h.1 (by norm_num)

/-- Claim C8 amended: a prim with no display color is drawn with a fixed
per-call default: (0.7, 0.7, 0.8) on the mesh paths (get_display_color's own
parameter default, and Mesh.__init__ in the basic viewer), while each
primitive-type renderer passes its own default — cube (0.3, 0.5, 0.8),
sphere (0.8, 0.3, 0.3), cylinder (0.3, 0.7, 0.3), cone (0.9, 0.7, 0.2),
capsule (0.8, 0.5, 0.2); an authored color always wins. -/
theorem display_color_defaults :
    meshDrawColor none = (7 / 10, 7 / 10, 4 / 5) ∧
    basicMeshDefaultColor = (7 / 10, 7 / 10, 4 / 5) ∧
    cubeDrawColor none = (3 / 10, 1 / 2, 4 / 5) ∧
    sphereDrawColor none = (4 / 5, 3 / 10, 3 / 10) ∧
    cylinderDrawColor none = (3 / 10, 7 / 10, 3 / 10) ∧
    coneDrawColor none = (9 / 10, 7 / 10, 1 / 5) ∧
    capsuleDrawColor none = (4 / 5, 1 / 2, 1 / 5) ∧
    ∀ (c : ℚ × ℚ × ℚ) (rest : List (ℚ × ℚ × ℚ)) (d : ℚ × ℚ × ℚ),
      getDisplayColor (some (c :: rest)) d = c :=
  ⟨rfl, rfl, rfl, rfl, rfl, rfl, rfl, fun _ _ _ => rfl⟩

/-- Counterexample to claim C3 as stated: for the collinear (degenerate)
triangle (0,0,0), (1,0,0), (2,0,0) the cross product is the zero vector
(length 0), and HydraViewport.render_mesh_simple emits that zero vector
unchanged instead of substituting the up vector (0,1,0) — so the up-vector
substitution does NOT hold in every mesh-triangulation path. -/
theorem render_mesh_simple_degenerate_counterexample :
    crossTri ⟨0, 0, 0⟩ ⟨1, 0, 0⟩ ⟨2, 0, 0⟩ = vzero ∧
    normSq (crossTri ⟨0, 0, 0⟩ ⟨1, 0, 0⟩ ⟨2, 0, 0⟩) = 0 ∧
    renderMeshSimpleNormal (crossTri ⟨0, 0, 0⟩ ⟨1, 0, 0⟩ ⟨2, 0, 0⟩) 0 = vzero ∧
    renderMeshSimpleNormal (crossTri ⟨0, 0, 0⟩ ⟨1, 0, 0⟩ ⟨2, 0, 0⟩) 0 ≠ vup := by
  have hc : crossTri ⟨0, 0, 0⟩ ⟨1, 0, 0⟩ ⟨2, 0, 0⟩ = vzero := by
    simp [crossTri, cross, vsub, vzero]
  refine ⟨hc, by rw [hc]; norm_num [normSq, vzero], ?_, ?_⟩
  · rw [hc]
    simp [renderMeshSimpleNormal, vzero]
  · rw [hc]
    simp only [renderMeshSimpleNormal, lt_irrefl, if_false, if_neg]
    intro h
    rw [show vzero = Vec3.mk 0 0 0 from rfl, show vup = Vec3.mk 0 1 0 from rfl] at h
    simp only [Vec3.mk.injEq] at h
    exact absurd h.2.1 (by norm_num)

/-- Claim C3 amended: on a zero-length cross product, Mesh.compute_normals
(basic viewer) and GLViewport.render_mesh (PyQt6 viewer) substitute the up
vector (0,1,0); HydraViewport.render_mesh_simple (the third mesh path)
instead leaves the vector unchanged, emitting the zero vector. -/
theorem degenerate_normal_fallback (v : Vec3) (l : ℚ)
    (hl : l * l = normSq v) (hd : normSq v = 0) :
    computeNormalBasic v l = vup ∧ renderMeshNormal v l = vup ∧
    renderMeshSimpleNormal v l = v ∧ v = vzero := by
  have hl0 : l = 0 := mul_self_eq_zero.mp (by rw [hl, hd])
  have hnp : ¬ 0 < l := by
    rw [hl0]
    exact lt_irrefl 0
  obtain ⟨x, y, z⟩ := v
  have hx : x = 0 := by
    simp only [normSq] at hd
    nlinarith [mul_self_nonneg x, mul_self_nonneg y, mul_self_nonneg z]
  have hy : y = 0 := by
    simp only [normSq] at hd
    nlinarith [mul_self_nonneg x, mul_self_nonneg y, mul_self_nonneg z]
  have hz : z = 0 := by
    simp only [normSq] at hd
    nlinarith [mul_self_nonneg x, mul_self_nonneg y, mul_self_nonneg z]
  subst hx hy hz
  exact ⟨by simp [computeNormalBasic, hnp], by simp [renderMeshNormal, hnp],
         by simp [renderMeshSimpleNormal, hnp], rfl⟩

/-- Concrete instance of the amended C3 on the collinear triangle
(0,0,0), (1,0,0), (2,0,0) with computed length 0. -/
theorem degenerate_normal_fallback_witness :
    ((0 : ℚ) * 0 = normSq (crossTri ⟨0, 0, 0⟩ ⟨1, 0, 0⟩ ⟨2, 0, 0⟩) ∧
     normSq (crossTri ⟨0, 0, 0⟩ ⟨1, 0, 0⟩ ⟨2, 0, 0⟩) = 0) ∧
    (computeNormalBasic (crossTri ⟨0, 0, 0⟩ ⟨1, 0, 0⟩ ⟨2, 0, 0⟩) 0 = vup ∧
     renderMeshNormal (crossTri ⟨0, 0, 0⟩ ⟨1, 0, 0⟩ ⟨2, 0, 0⟩) 0 = vup ∧
     renderMeshSimpleNormal (crossTri ⟨0, 0, 0⟩ ⟨1, 0, 0⟩ ⟨2, 0, 0⟩) 0 =
       crossTri ⟨0, 0, 0⟩ ⟨1, 0, 0⟩ ⟨2, 0, 0⟩ ∧
     crossTri ⟨0, 0, 0⟩ ⟨1, 0, 0⟩ ⟨2, 0, 0⟩ = vzero) :=
  ⟨⟨by norm_num [crossTri, cross, vsub, normSq], by norm_num [crossTri, cross, vsub, normSq]⟩,
   degenerate_normal_fallback _ 0 (by norm_num [crossTri, cross, vsub, normSq])
     (by norm_num [crossTri, cross, vsub, normSq])⟩

/-- Claim C10: Mesh.render is total on any stored mesh data, even when the
Geometry Buffer invariant is violated: every command it emits reads a
position actually stored in the vertex list or a normal actually stored in
the normal list — out-of-range vertex indices and missing normals are
skipped, never accessed. -/
theorem render_mesh_cmds_in_bounds (m : MeshData) (c : GLCmd)
    (hc : c ∈ renderMeshCmds m) :
    (∃ n ∈ m.normals, c = GLCmd.setNormal n) ∨
    (∃ v ∈ m.vertices, c = GLCmd.emitVertex v) := by
  simp only [renderMeshCmds, List.mem_flatMap, List.mem_append] at hc
  obtain ⟨p, _, hcmem⟩ := hc
  rcases hcmem with hn | hv
  · left
    rcases hget : m.normals.get? p.1 with _ | n
    · rw [hget] at hn
      simp at hn
    · rw [hget] at hn
      simp only [List.mem_singleton] at hn
      exact ⟨n, List.get?_mem hget, hn⟩
  · right
    simp only [List.mem_filterMap] at hv
    obtain ⟨vi, _, hmap⟩ := hv
    rcases hget : m.vertices.get? vi with _ | v
    · rw [hget] at hmap
      simp at hmap
    · rw [hget] at hmap
      simp at hmap
      exact ⟨v, List.get?_mem hget, hmap.symm⟩

/-- Concrete instance of C10: a mesh with one vertex, no normals, and a face
referencing out-of-range indices 5 and 7 renders exactly the one stored
vertex and nothing else. -/
theorem render_mesh_cmds_in_bounds_witness :
    renderMeshCmds ⟨[vzero], [], [[0, 5, 7]]⟩ = [GLCmd.emitVertex vzero] ∧
    GLCmd.emitVertex vzero ∈ renderMeshCmds ⟨[vzero], [], [[0, 5, 7]]⟩ ∧
    ((∃ n ∈ (⟨[vzero], [], [[0, 5, 7]]⟩ : MeshData).normals,
        GLCmd.emitVertex vzero = GLCmd.setNormal n) ∨
     (∃ v ∈ (⟨[vzero], [], [[0, 5, 7]]⟩ : MeshData).vertices,
        GLCmd.emitVertex vzero = GLCmd.emitVertex v)) := by
  refine ⟨rfl, by rw [show renderMeshCmds ⟨[vzero], [], [[0, 5, 7]]⟩ =
      [GLCmd.emitVertex vzero] from rfl]; exact List.mem_singleton.mpr rfl, ?_⟩
  exact render_mesh_cmds_in_bounds ⟨[vzero], [], [[0, 5, 7]]⟩ (GLCmd.emitVertex vzero)
    (by rw [show renderMeshCmds ⟨[vzero], [], [[0, 5, 7]]⟩ =
      [GLCmd.emitVertex vzero] from rfl]; exact List.mem_singleton.mpr rfl)

/-- Claim C9: the Primitive Tessellator is deterministic — it is a pure
function of (type, parameters, resolution): two invocations with equal
inputs (trigonometry oracle, radius/size/height, slice/stack/band counts)
produce identical geometry streams, for every primitive type: cube, sphere
(the render path and the sample-mesh generator), cylinder, cone, and
capsule. -/
theorem tessellator_deterministic
    (t1 t2 : Trig) (r1 r2 size1 size2 hgt1 hgt2 : ℚ) (a1 a2 b1 b2 : ℕ)
    (ht : t1 = t2) (hr : r1 = r2) (hs : size1 = size2) (hh : hgt1 = hgt2)
    (ha : a1 = a2) (hb : b1 = b2) :
    renderCubeQuads size1 = renderCubeQuads size2 ∧
    renderSphereStrips t1 r1 a1 b1 = renderSphereStrips t2 r2 a2 b2 ∧
    sampleSphereVerts t1 r1 a1 b1 = sampleSphereVerts t2 r2 a2 b2 ∧
    sampleSphereFaces a1 b1 = sampleSphereFaces a2 b2 ∧
    renderCylinderStream t1 r1 hgt1 a1 = renderCylinderStream t2 r2 hgt2 a2 ∧
    renderConeStream t1 r1 hgt1 a1 = renderConeStream t2 r2 hgt2 a2 ∧
    renderCapsuleStream t1 r1 hgt1 a1 b1 = renderCapsuleStream t2 r2 hgt2 a2 b2 := by
  subst ht hr hs hh ha hb
  exact ⟨rfl, rfl, rfl, rfl, rfl, rfl, rfl⟩

/-- Concrete instance of C9 at 24 slices and 16 stacks/bands, radius 1,
height 2, cube size 2. -/
theorem tessellator_deterministic_witness :
    renderCubeQuads 2 = renderCubeQuads 2 ∧
    renderSphereStrips trigZero 1 24 16 = renderSphereStrips trigZero 1 24 16 ∧
    sampleSphereVerts trigZero 1 24 16 = sampleSphereVerts trigZero 1 24 16 ∧
    sampleSphereFaces 24 16 = sampleSphereFaces 24 16 ∧
    renderCylinderStream trigZero 1 2 24 = renderCylinderStream trigZero 1 2 24 ∧
    renderConeStream trigZero 1 2 24 = renderConeStream trigZero 1 2 24 ∧
    renderCapsuleStream trigZero 1 2 24 16 = renderCapsuleStream trigZero 1 2 24 16 :=
  tessellator_deterministic trigZero trigZero 1 1 2 2 2 2 24 24 16 16
    rfl rfl rfl rfl rfl rfl

theorem trigZero_pyth : TrigPyth trigZero := by
  intro a
  norm_num [trigZero]

theorem sphereStripPoint_normSq (t : Trig) (hp : TrigPyth t) (radius : ℚ)
    (hr : radius ≠ 0) (lat lng : ℚ) :
    normSq (sphereStripPoint t radius lat lng).1 = 1 := by
  have h1 := hp lat
  have h2 := hp lng
  have hradius : ∀ a : ℚ, radius * a / radius = a := fun a =>
    mul_div_cancel_left₀ a hr
  simp only [sphereStripPoint, normSq, mul_div_assoc, hradius]
  linear_combination (t.cos lat * t.cos lat) * h2 + h1

theorem renderSphereStrips_normSq (t : Trig) (hp : TrigPyth t) (radius : ℚ)
    (hr : radius ≠ 0) (a b : ℕ) :
    ∀ strip ∈ renderSphereStrips t radius a b, ∀ p ∈ strip, normSq p.1 = 1 := by
  intro strip hs p hpmem
  simp only [renderSphereStrips, List.mem_map] at hs
  obtain ⟨i, _, rfl⟩ := hs
  simp only [List.mem_flatMap, List.mem_range] at hpmem
  obtain ⟨j, _, hj⟩ := hpmem
  simp only [List.mem_cons, List.not_mem_nil, or_false] at hj
  rcases hj with rfl | rfl
  · exact sphereStripPoint_normSq t hp radius hr _ _
  · exact sphereStripPoint_normSq t hp radius hr _ _

theorem computeNormalBasic_normSq (v : Vec3) (l : ℚ) (hl : l * l = normSq v) :
    normSq (computeNormalBasic v l) = 1 := by
  by_cases hpos : 0 < l
  · obtain ⟨x, y, z⟩ := v
    simp only [normSq] at hl
    simp only [computeNormalBasic, if_pos hpos, normSq, vscale]
    have hne : l ≠ 0 := ne_of_gt hpos
    field_simp
    linear_combination hl.symm
  · simp [computeNormalBasic, hpos, normSq, vup]

theorem renderMeshSimpleNormal_normSq (v : Vec3) (l : ℚ) (h0 : 0 ≤ l)
    (hl : l * l = normSq v) :
    (normSq v ≠ 0 → normSq (renderMeshSimpleNormal v l) = 1) ∧
    (normSq v = 0 → normSq (renderMeshSimpleNormal v l) = 0 ∧
       renderMeshSimpleNormal v l = v) := by
  constructor
  · intro hne
    have hlne : l ≠ 0 := by
      intro h
      rw [h] at hl
      simp only [zero_mul] at hl
      exact hne hl.symm
    have hpos : 0 < l := lt_of_le_of_ne h0 (Ne.symm hlne)
    obtain ⟨x, y, z⟩ := v
    simp only [normSq] at hl
    simp only [renderMeshSimpleNormal, if_pos hpos, normSq, vscale]
    field_simp
    linear_combination hl.symm
  · intro hz
    have hl0 : l = 0 := mul_self_eq_zero.mp (by rw [hl, hz])
    have hnp : ¬ 0 < l := by
      rw [hl0]
      exact lt_irrefl 0
    simp only [renderMeshSimpleNormal, if_neg hnp]
    exact ⟨hz, by trivial⟩

/-- Counterexample to claim C2 as stated: render_cone emits its side-wall
normal glNormal3f(x, radius/height, z) WITHOUT normalizing it.  At slice 0
(cos = 1, sin = 0) with the default radius 1 and height 2, the emitted
normal is (1, 1/2, 0), whose squared magnitude is 5/4, not 1 — and the
source triangle is not degenerate. -/
theorem cone_side_normal_not_unit :
    TrigPyth trigZero ∧
    coneSideNormal trigZero 0 1 2 = ⟨1, 1 / 2, 0⟩ ∧
    normSq (coneSideNormal trigZero 0 1 2) = 5 / 4 ∧
    normSq (coneSideNormal trigZero 0 1 2) ≠ 1 := by
  refine ⟨trigZero_pyth, ?_, ?_, ?_⟩
  · norm_num [coneSideNormal, trigZero]
  · norm_num [coneSideNormal, trigZero, normSq]
  · norm_num [coneSideNormal, trigZero, normSq]

/-- Claim C2 amended: every normal emitted by the sphere, cylinder-side,
cap, and capsule-hemisphere tessellation paths has magnitude 1; the
mesh-triangulation normals of compute_normals and render_mesh have
magnitude 1 as well, the degenerate fallback (0,1,0) included, while
render_mesh_simple emits a unit normal only for a non-degenerate triangle
and emits the raw zero cross product (magnitude 0) on a degenerate one;
and the cone side-wall normal is emitted unnormalized as
(x, radius/height, z), with squared magnitude 1 + (radius/height)² — it is
not normalized before being emitted. -/
theorem tessellator_normal_magnitudes (t : Trig) (hp : TrigPyth t)
    (radius : ℚ) (hr : radius ≠ 0) :
    (∀ (a b : ℕ), ∀ strip ∈ renderSphereStrips t radius a b,
       ∀ p ∈ strip, normSq p.1 = 1) ∧
    (∀ a : ℚ, normSq (cylinderSideNormal t a) = 1) ∧
    normSq capTopNormal = 1 ∧ normSq capBottomNormal = 1 ∧
    (∀ a lat sign : ℚ, sign * sign = 1 →
       normSq (capsuleHemiNormal t a lat sign radius) = 1) ∧
    (∀ (v : Vec3) (l : ℚ), l * l = normSq v →
       normSq (computeNormalBasic v l) = 1 ∧ normSq (renderMeshNormal v l) = 1) ∧
    (∀ (v : Vec3) (l : ℚ), 0 ≤ l → l * l = normSq v →
       (normSq v ≠ 0 → normSq (renderMeshSimpleNormal v l) = 1) ∧
       (normSq v = 0 → normSq (renderMeshSimpleNormal v l) = 0 ∧
          renderMeshSimpleNormal v l = v)) ∧
    (∀ a height : ℚ, normSq (coneSideNormal t a radius height) =
       1 + (radius / height) * (radius / height)) := by
  refine ⟨fun a b => renderSphereStrips_normSq t hp radius hr a b,
    ?_, ?_, ?_, ?_, ?_, fun v l h0 hl => renderMeshSimpleNormal_normSq v l h0 hl, ?_⟩
  · intro a
    have h := hp a
    simp only [cylinderSideNormal, normSq]
    linear_combination h
  · norm_num [capTopNormal, normSq]
  · norm_num [capBottomNormal, normSq]
  · intro a lat sign hsign
    have h1 := hp a
    have h2 := hp lat
    have hradius : ∀ q : ℚ, radius * q / radius = q := fun q =>
      mul_div_cancel_left₀ q hr
    simp only [capsuleHemiNormal, normSq, mul_div_assoc, hradius]
    linear_combination (t.cos lat * t.cos lat) * h1 +
      (t.sin lat * t.sin lat) * hsign + h2
  · intro v l hl
    exact ⟨computeNormalBasic_normSq v l hl, computeNormalBasic_normSq v l hl⟩
  · intro a height
    have h := hp a
    simp only [coneSideNormal, normSq]
    linear_combination h

/-- Concrete instance of the amended C2 with the angle-zero oracle and
radius 1: the cylinder side-wall normal at angle 0 is unit, the degenerate
render_mesh_simple normal at the zero cross product is the zero vector, and
the cone side normal at height 2 has squared magnitude 5/4. -/
theorem tessellator_normal_magnitudes_witness :
    normSq (cylinderSideNormal trigZero 0) = 1 ∧
    normSq (renderMeshSimpleNormal vzero 0) = 0 ∧
    normSq (coneSideNormal trigZero 0 1 2) = 1 + ((1 : ℚ) / 2) * (1 / 2) := by
  have h := tessellator_normal_magnitudes trigZero trigZero_pyth 1 (by norm_num)
  refine ⟨h.2.1 0, ?_, h.2.2.2.2.2.2.2 0 2⟩
  exact (h.2.2.2.2.2.2.1 vzero 0 (by norm_num)
    (by norm_num [normSq, vzero])).2 (by norm_num [normSq, vzero]) |>.1

/-- Counterexample to claim C4 as stated: render_cube with size 2 emits its
geometry as a GL_QUADS stream of exactly 6 four-vertex quad primitives — it
does not produce 12 triangles (no triangle primitive occurs in its output at
all). -/
theorem render_cube_emits_quads_not_triangles :
    (renderCubeQuads 2).length = 6 ∧
    (renderCubeQuads 2).map (fun q => q.2.length) = [4, 4, 4, 4, 4, 4] ∧
    (renderCubeQuads 2).length ≠ 12 := by
  refine ⟨rfl, rfl, ?_⟩
  rw [show (renderCubeQuads 2).length = 6 from rfl]
  norm_num

/-- Claim C4 amended: tessellating a Cube prim with size 2 emits exactly 6
quad faces (one GL_QUADS primitive per cube face, 4 vertices each), each
carrying one constant-axis unit flat normal; the sample-cube mesh path
(create_sample_cube) emits exactly 12 triangles whose derived face normals
are constant-axis unit vectors agreeing pairwise on each of the 6 cube
faces, and compute_normals emits those cross products unchanged (their
length is exactly 1). -/
theorem cube_tessellation_amended :
    (renderCubeQuads 2).length = 6 ∧
    (renderCubeQuads 2).map (fun q => q.2.length) = [4, 4, 4, 4, 4, 4] ∧
    cubeQuadFaces.map (fun f => normSq f.2) = [1, 1, 1, 1, 1, 1] ∧
    sampleCubeFaces.length = 12 ∧
    sampleCubeCross =
      [⟨0, 0, 1⟩, ⟨0, 0, 1⟩, ⟨0, 0, -1⟩, ⟨0, 0, -1⟩, ⟨0, 1, 0⟩, ⟨0, 1, 0⟩,
       ⟨0, -1, 0⟩, ⟨0, -1, 0⟩, ⟨1, 0, 0⟩, ⟨1, 0, 0⟩, ⟨-1, 0, 0⟩, ⟨-1, 0, 0⟩] ∧
    sampleCubeCross.map normSq = [1, 1, 1, 1, 1, 1, 1, 1, 1, 1, 1, 1] ∧
    sampleCubeCross.map (fun v => computeNormalBasic v 1) = sampleCubeCross := by
  have hcross : sampleCubeCross =
      [⟨0, 0, 1⟩, ⟨0, 0, 1⟩, ⟨0, 0, -1⟩, ⟨0, 0, -1⟩, ⟨0, 1, 0⟩, ⟨0, 1, 0⟩,
       ⟨0, -1, 0⟩, ⟨0, -1, 0⟩, ⟨1, 0, 0⟩, ⟨1, 0, 0⟩, ⟨-1, 0, 0⟩, ⟨-1, 0, 0⟩] := by
    simp only [sampleCubeCross, sampleCubeFaces, sampleCubeVertices, faceCross,
      crossTri, cross, vsub, List.map, List.getD]
    norm_num
  refine ⟨rfl, rfl, ?_, rfl, hcross, ?_, ?_⟩
  · simp only [cubeQuadFaces, normSq, List.map]
    norm_num
  · rw [hcross]
    simp only [normSq, List.map]
    norm_num
  · rw [hcross]
    simp only [computeNormalBasic, vscale, List.map]
    norm_num
